import Mathlib

/-!
# Freezit inventory domain — verification development

A shallow embedding of the freezit repository's inventory domain:
the SQL schema of `api/migrations/2023-12-09-180556_final_dev_migration/up.sql`,
the database seed scripts, and the entity-store / query / aggregation /
freshness operations described by the specification (the Rust API source is
not part of the reviewed tree, so those operations are modelled from the
spec, each marked as such in its doc comment).
-/

namespace Freezit

/-! ## Calendar dates -/

/-- A calendar date (proleptic Gregorian), as stored in the SQL `DATE` columns. -/
structure Date where
  year : Int
  month : Int
  day : Int
deriving DecidableEq

/-- Gregorian leap-year rule. -/
def isLeapYear (y : Int) : Bool :=
  (y % 4 == 0 && y % 100 != 0) || y % 400 == 0

/-- Number of days in a given month of a given year. -/
def daysInMonth (y m : Int) : Int :=
  if m = 2 then (if isLeapYear y then 29 else 28)
  else if m = 4 ∨ m = 6 ∨ m = 9 ∨ m = 11 then 30
  else 31

/-- Days since 1970-01-01 (can be negative), standard civil-calendar
day-count algorithm. Used to compare dates and measure day distances. -/
def rataDie (d : Date) : Int :=
  let y : Int := if d.month ≤ 2 then d.year - 1 else d.year
  let era : Int := (if 0 ≤ y then y else y - 399) / 400
  let yoe : Int := y - era * 400
  let mp : Int := if 2 < d.month then d.month - 3 else d.month + 9
  let doy : Int := (153 * mp + 2) / 5 + d.day - 1
  let doe : Int := yoe * 365 + yoe / 4 - yoe / 100 + doy
  era * 146097 + doe - 719468

/-- Date order: `a` is on or before `b`. -/
def dateLe (a b : Date) : Prop := rataDie a ≤ rataDie b

/-- Strict date order: `a` is strictly before `b`. -/
def dateLt (a b : Date) : Prop := rataDie a < rataDie b

instance (a b : Date) : Decidable (dateLe a b) := by unfold dateLe; infer_instance
instance (a b : Date) : Decidable (dateLt a b) := by unfold dateLt; infer_instance

/-- Modelled from the spec: calendar-month addition with day-of-month clamped
to the last valid day of the target month (the expiration engine of the API
is not in the reviewed sources). -/
def addMonthsClamped (d : Date) (n : Int) : Date :=
  let t : Int := d.year * 12 + (d.month - 1) + n
  let y : Int := t / 12
  let m : Int := t % 12 + 1
  ⟨y, m, min d.day (daysInMonth y m)⟩

/-- The three-way derived freshness classification. -/
inductive Freshness where
  | Fresh
  | ExpiringSoon
  | Expired
deriving DecidableEq

/-- Modelled from the spec: `expiresOn = date_in + expiration_months`
(calendar-month arithmetic with clamping); `Expired` if `now >= expiresOn`,
`ExpiringSoon` if `expiresOn` is within the 14-day lookahead window of `now`,
`Fresh` otherwise. The API's freshness engine is not in the reviewed sources. -/
def freshnessStatus (dateIn : Date) (months : Int) (now : Date) : Freshness :=
  let expiresOn := addMonthsClamped dateIn months
  if rataDie expiresOn ≤ rataDie now then .Expired
  else if rataDie expiresOn - rataDie now ≤ 14 then .ExpiringSoon
  else .Fresh

/-! ## Entities and store state

The four entity types, translated from the `up.sql` migration
(`freezers`, `drawers`, `products`, `storage`). `weight_grams` is the SQL
`float4` column; its value space is modelled by rationals, with the
binary32 rounding treated separately below. -/

structure Freezer where
  freezer_id : Nat
  name : String
deriving DecidableEq

structure Drawer where
  drawer_id : Nat
  name : String
  freezer_id : Nat
deriving DecidableEq

structure Product where
  product_id : Nat
  name : String
  expiration_months : Int
deriving DecidableEq

structure StorageEntry where
  storage_id : Nat
  product_id : Nat
  drawer_id : Nat
  weight_grams : ℚ
  date_in : Date
  date_out : Option Date
  available : Bool
deriving DecidableEq

/-- The database state: the four tables, plus the `SERIAL` sequence
counters that generate fresh primary keys. -/
structure Store where
  freezers : List Freezer
  drawers : List Drawer
  products : List Product
  storage : List StorageEntry
  nextFreezerId : Nat
  nextDrawerId : Nat
  nextProductId : Nat
  nextStorageId : Nat
deriving DecidableEq

/-- The constraints declared by the final migration `up.sql`: primary keys,
`freezers.name UNIQUE`, `drawers UNIQUE (freezer_id, name)`,
`products.name UNIQUE`, and the two `REFERENCES` foreign keys on `storage`
plus the one on `drawers`. These are ALL the row constraints the schema
declares (there is no CHECK constraint). -/
def schemaOk (s : Store) : Prop :=
  (s.freezers.map Freezer.freezer_id).Nodup ∧
  (s.freezers.map Freezer.name).Nodup ∧
  (s.drawers.map Drawer.drawer_id).Nodup ∧
  (s.drawers.map (fun d => (d.freezer_id, d.name))).Nodup ∧
  (∀ d ∈ s.drawers, d.freezer_id ∈ s.freezers.map Freezer.freezer_id) ∧
  (s.products.map Product.product_id).Nodup ∧
  (s.products.map Product.name).Nodup ∧
  (s.storage.map StorageEntry.storage_id).Nodup ∧
  (∀ e ∈ s.storage, e.product_id ∈ s.products.map Product.product_id ∧
    e.drawer_id ∈ s.drawers.map Drawer.drawer_id)

instance (s : Store) : Decidable (schemaOk s) := by unfold schemaOk; infer_instance

/-- The error kinds of the request/response contract. -/
inductive Err where
  | NotFound
  | DuplicateName
  | InvalidArgument
  | Conflict
deriving DecidableEq

/-- The empty database. `SERIAL` starts at 1. -/
def emptyStore : Store :=
  { freezers := [], drawers := [], products := [], storage := []
    nextFreezerId := 1, nextDrawerId := 1, nextProductId := 1, nextStorageId := 1 }

/-! ## Entity-store operations

The Rust API implementing the entity store is not in the reviewed sources,
so each operation is modelled from the spec (§4.1), with guards in the
order the spec lists them; the cascade behaviour of the delete operations
follows the `ON DELETE CASCADE` clauses of `up.sql`. -/

/-- Modelled from the spec: `createFreezer(name)`; fails with
`DuplicateName` if a freezer with that name exists. -/
def createFreezer (s : Store) (name : String) : Except Err Store :=
  if name ∈ s.freezers.map Freezer.name then .error .DuplicateName
  else .ok { s with
    freezers := s.freezers ++ [⟨s.nextFreezerId, name⟩]
    nextFreezerId := s.nextFreezerId + 1 }

/-- Modelled from the spec: `createDrawer(freezerId, name)`; fails with
`NotFound` if the freezer does not exist, `DuplicateName` if the
(freezer, name) pair exists. -/
def createDrawer (s : Store) (fid : Nat) (name : String) : Except Err Store :=
  if fid ∉ s.freezers.map Freezer.freezer_id then .error .NotFound
  else if (fid, name) ∈ s.drawers.map (fun d => (d.freezer_id, d.name)) then
    .error .DuplicateName
  else .ok { s with
    drawers := s.drawers ++ [⟨s.nextDrawerId, name, fid⟩]
    nextDrawerId := s.nextDrawerId + 1 }

/-- Modelled from the spec: `createProduct(name, expirationMonths)`; fails
with `DuplicateName` if the name exists, `InvalidArgument` if
`expirationMonths <= 0` (guards in the order §4.1 lists them). -/
def createProduct (s : Store) (name : String) (months : Int) : Except Err Store :=
  if name ∈ s.products.map Product.name then .error .DuplicateName
  else if months ≤ 0 then .error .InvalidArgument
  else .ok { s with
    products := s.products ++ [⟨s.nextProductId, name, months⟩]
    nextProductId := s.nextProductId + 1 }

/-- Modelled from the spec: `createStorageEntry(productId, drawerId,
weightGrams, dateIn)` with `available = true`, `date_out = null`; fails with
`NotFound` if product or drawer is missing, `InvalidArgument` if
`weightGrams <= 0`. -/
def createStorageEntry (s : Store) (pid did : Nat) (w : ℚ) (dateIn : Date) :
    Except Err Store :=
  if pid ∉ s.products.map Product.product_id then .error .NotFound
  else if did ∉ s.drawers.map Drawer.drawer_id then .error .NotFound
  else if w ≤ 0 then .error .InvalidArgument
  else .ok { s with
    storage := s.storage ++
      [⟨s.nextStorageId, pid, did, w, dateIn, none, true⟩]
    nextStorageId := s.nextStorageId + 1 }

/-- Modelled from the spec: `checkOut(storageId, dateOut)` marks the entry
unavailable and sets `date_out`; fails with `NotFound` if the entry does not
exist or is already unavailable, `InvalidArgument` if `dateOut < date_in`. -/
def checkOut (s : Store) (sid : Nat) (dOut : Date) : Except Err Store :=
  match s.storage.find? (fun e => e.storage_id == sid) with
  | none => .error .NotFound
  | some e =>
    if e.available = false then .error .NotFound
    else if dateLt dOut e.date_in then .error .InvalidArgument
    else .ok { s with
      storage := s.storage.map (fun e2 =>
        if e2.storage_id = sid then
          { e2 with available := false, date_out := some dOut }
        else e2) }

/-- Modelled from the spec and the `ON DELETE CASCADE` clauses of `up.sql`:
deleting a freezer cascades to its drawers and to the storage entries of
those drawers; fails with `NotFound` if the freezer does not exist. -/
def deleteFreezer (s : Store) (fid : Nat) : Except Err Store :=
  if fid ∈ s.freezers.map Freezer.freezer_id then
    .ok { s with
      freezers := s.freezers.filter (fun f => ¬ f.freezer_id = fid)
      drawers := s.drawers.filter (fun d => ¬ d.freezer_id = fid)
      storage := s.storage.filter (fun e =>
        ¬ ∃ d ∈ s.drawers, d.freezer_id = fid ∧ d.drawer_id = e.drawer_id) }
  else .error .NotFound

/-- Modelled from the spec and `up.sql`: deleting a drawer cascades to its
storage entries. -/
def deleteDrawer (s : Store) (did : Nat) : Except Err Store :=
  if did ∈ s.drawers.map Drawer.drawer_id then
    .ok { s with
      drawers := s.drawers.filter (fun d => ¬ d.drawer_id = did)
      storage := s.storage.filter (fun e => ¬ e.drawer_id = did) }
  else .error .NotFound

/-- Modelled from the spec and `up.sql`: deleting a product cascades to its
storage entries. -/
def deleteProduct (s : Store) (pid : Nat) : Except Err Store :=
  if pid ∈ s.products.map Product.product_id then
    .ok { s with
      products := s.products.filter (fun p => ¬ p.product_id = pid)
      storage := s.storage.filter (fun e => ¬ e.product_id = pid) }
  else .error .NotFound

/-- The mutating operations of the entity store. -/
inductive Op where
  | createFreezer (name : String)
  | createDrawer (fid : Nat) (name : String)
  | createProduct (name : String) (months : Int)
  | createStorageEntry (pid did : Nat) (w : ℚ) (dateIn : Date)
  | checkOut (sid : Nat) (dOut : Date)
  | deleteFreezer (fid : Nat)
  | deleteDrawer (did : Nat)
  | deleteProduct (pid : Nat)

/-- Run one operation, returning the success state or the error. -/
def runOp (s : Store) : Op → Except Err Store
  | .createFreezer name => createFreezer s name
  | .createDrawer fid name => createDrawer s fid name
  | .createProduct name months => createProduct s name months
  | .createStorageEntry pid did w dateIn => createStorageEntry s pid did w dateIn
  | .checkOut sid dOut => checkOut s sid dOut
  | .deleteFreezer fid => deleteFreezer s fid
  | .deleteDrawer did => deleteDrawer s did
  | .deleteProduct pid => deleteProduct s pid

/-- The state after an operation: a failed request leaves the store
unchanged. -/
def applyOp (s : Store) (op : Op) : Store :=
  match runOp s op with
  | .ok s2 => s2
  | .error _ => s

/-- A store state reachable from the empty database through the supported
operations. -/
def Reachable (s : Store) : Prop :=
  ∃ ops : List Op, s = ops.foldl applyOp emptyStore

/-! ## Query/Filter and Aggregation services -/

/-- The filter configuration of `listStorageEntries` (§4.3). -/
structure StorageFilter where
  freezerId : Option Nat := none
  drawerId : Option Nat := none
  productId : Option Nat := none
  availableOnly : Bool := true
  freshness : Option Freshness := none
deriving DecidableEq

/-- Modelled from the spec: whether a storage entry matches a filter (the
freezer restriction joins through the drawer table, the freshness
restriction joins through the product table). -/
def entryMatches (s : Store) (flt : StorageFilter) (now : Date)
    (e : StorageEntry) : Bool :=
  (match flt.drawerId with
   | some d => e.drawer_id == d
   | none => true) &&
  (match flt.productId with
   | some p => e.product_id == p
   | none => true) &&
  (match flt.freezerId with
   | some fz => s.drawers.any (fun d => d.drawer_id == e.drawer_id &&
       d.freezer_id == fz)
   | none => true) &&
  (!flt.availableOnly || e.available) &&
  (match flt.freshness with
   | some st =>
     (match s.products.find? (fun p => p.product_id == e.product_id) with
      | some p => freshnessStatus e.date_in p.expiration_months now == st
      | none => false)
   | none => true)

/-- The output order of `listStorageEntries`: `date_in` ascending,
ties broken by `storage_id` ascending. -/
def entryOrder (a b : StorageEntry) : Prop :=
  rataDie a.date_in < rataDie b.date_in ∨
    (rataDie a.date_in = rataDie b.date_in ∧ a.storage_id ≤ b.storage_id)

instance : DecidableRel entryOrder := by unfold entryOrder; infer_instance

instance : IsTotal StorageEntry entryOrder where
  total a b := by
    unfold entryOrder
    rcases lt_trichotomy (rataDie a.date_in) (rataDie b.date_in) with h | h | h
    · exact Or.inl (Or.inl h)
    · rcases Nat.le_total a.storage_id b.storage_id with h2 | h2
      · exact Or.inl (Or.inr ⟨h, h2⟩)
      · exact Or.inr (Or.inr ⟨h.symm, h2⟩)
    · exact Or.inr (Or.inl h)

instance : IsTrans StorageEntry entryOrder where
  trans a b c hab hbc := by
    unfold entryOrder at *
    rcases hab with h1 | ⟨h1, h1b⟩ <;> rcases hbc with h2 | ⟨h2, h2b⟩
    · exact Or.inl (h1.trans h2)
    · exact Or.inl (h2 ▸ h1)
    · exact Or.inl (h1 ▸ h2)
    · exact Or.inr ⟨h1.trans h2, h1b.trans h2b⟩

/-- Modelled from the spec: `listStorageEntries(filter)` returns the matched
entries ordered by `date_in` ascending with `storage_id` as tie-break. -/
def listStorageEntries (s : Store) (flt : StorageFilter) (now : Date) :
    List StorageEntry :=
  List.insertionSort entryOrder (s.storage.filter (entryMatches s flt now))

/-- Rational addition computed on the numerator/denominator representation
(so that it evaluates in the kernel); proved equal to `+` below. -/
def qAdd (x y : ℚ) : ℚ :=
  Rat.divInt (x.num * (y.den : ℤ) + y.num * (x.den : ℤ))
    ((x.den : ℤ) * (y.den : ℤ))

/-- Executable sum of a list of rationals. -/
def ratSum (l : List ℚ) : ℚ := l.foldr qAdd 0

/-- One output row of `aggregateByProduct`. -/
structure AggRow where
  productId : Nat
  productName : String
  entryCount : Nat
  totalWeightGrams : ℚ
deriving DecidableEq

/-- Modelled from the spec: `aggregateByProduct(filter)` forces
`availableOnly` to true, and yields one row per distinct product with a
non-empty matched entry set. -/
def aggregateByProduct (s : Store) (flt : StorageFilter) (now : Date) :
    List AggRow :=
  let matched := s.storage.filter
    (entryMatches s { flt with availableOnly := true } now)
  (s.products.filter
      (fun p => matched.any (fun e => e.product_id == p.product_id))).map
    (fun p =>
      let es := matched.filter (fun e => e.product_id == p.product_id)
      { productId := p.product_id
        productName := p.name
        entryCount := es.length
        totalWeightGrams := ratSum (es.map StorageEntry.weight_grams) })

/-! ## The `float4` column model

`up.sql` declares `storage.weight_grams` with SQL type `float4`
(IEEE-754 binary32). The rounding of a real (here: rational) value to the
nearest binary32 value is modelled exactly on dyadic rationals, for inputs
in the normal range of the format. -/

/-- Floor of the base-2 logarithm of a natural number, by structural
recursion on a fuel bound. -/
def log2floorAux : Nat → Nat → Nat
  | 0, _ => 0
  | fuel + 1, n => if n ≤ 1 then 0 else log2floorAux fuel (n / 2) + 1

/-- `log2floor n = ⌊log₂ n⌋` for `n ≥ 1`. -/
def log2floor (n : Nat) : Nat := log2floorAux n n

/-- Round the fraction `a / b` (with `b > 0`) to the nearest integer,
ties to even; stated on integers so that it evaluates in the kernel. -/
def roundHalfEvenInt (a b : ℤ) : ℤ :=
  let n := a.fdiv b
  let r := a - n * b
  if 2 * r < b then n
  else if b < 2 * r then n + 1
  else if n % 2 = 0 then n else n + 1

/-- `⌊log₂ (a / b)⌋` for positive naturals `a`, `b`. -/
def floorLog2Frac (a b : Nat) : ℤ :=
  if b ≤ a then (log2floor (a / b) : ℤ)
  else
    let k := log2floor (b / a)
    if a * 2 ^ k = b then -(k : ℤ) else -(k : ℤ) - 1

/-- Modelled from the spec and the `float4` column type of `up.sql`:
round-to-nearest, ties-to-even, at binary32 precision (24-bit significand),
computed on the numerator/denominator representation. Faithful on the
normal range of the format; overflow to infinity and subnormal underflow
are outside the model. -/
def roundF32 (q : ℚ) : ℚ :=
  if q.num = 0 then 0
  else
    let a : Nat := q.num.natAbs
    let b : Nat := q.den
    let e : ℤ := floorLog2Frac a b
    let m : ℤ :=
      if e ≤ 23 then roundHalfEvenInt ((a : ℤ) * 2 ^ (23 - e).toNat) (b : ℤ)
      else roundHalfEvenInt (a : ℤ) ((b : ℤ) * 2 ^ (e - 23).toNat)
    let sm : ℤ := if q.num < 0 then -m else m
    if e ≤ 23 then Rat.divInt sm ((2 : ℤ) ^ (23 - e).toNat)
    else Rat.divInt (sm * 2 ^ (e - 23).toNat) 1

/-- Modelled from the `float4` column type: the value actually stored for
an input weight is its binary32 rounding. -/
def storedWeight (w : ℚ) : ℚ := roundF32 w

/-- Modelled from the `float4` column type: summing weights in binary32
arithmetic (each addend and each partial sum rounded to binary32). -/
def floatSumF32 (ws : List ℚ) : ℚ :=
  ws.foldl (fun acc w => roundF32 (qAdd acc (roundF32 w))) 0

/-! ## Basic lemmas about the executable rational sum -/

theorem qAdd_eq_add (x y : ℚ) : qAdd x y = x + y := by
  unfold qAdd
  conv_rhs => rw [← Rat.num_divInt_den x, ← Rat.num_divInt_den y]
  rw [Rat.divInt_add_divInt _ _ (by exact_mod_cast x.den_nz) (by exact_mod_cast y.den_nz)]

theorem ratSum_eq_sum (l : List ℚ) : ratSum l = l.sum := by
  induction l with
  | nil => rfl
  | cons x xs ih =>
    simp only [ratSum, List.foldr_cons, List.sum_cons] at *
    rw [qAdd_eq_add, ih]

/-! ## The database states built by the seed scripts

Translated from the two seed shell scripts in the sources: both scripts
truncate the four tables and re-insert the same products, freezers and
drawers; they differ in the storage inserts. `seedPart001` inserts
`date_out` values directly in the `INSERT` (leaving `available` at its
default `TRUE`); `seedPart002` inserts no `date_out` and afterwards runs
`UPDATE storage SET available=false WHERE storage_id = 18` and
`UPDATE storage SET available=false, date_out='2023-11-10' WHERE
storage_id = 23`. -/

def seedProducts : List Product :=
  [⟨1, "Brocoli", 12⟩, ⟨2, "Groentensoep", 16⟩, ⟨3, "Spruiten", 12⟩,
   ⟨4, "Pastinaaksoep", 12⟩, ⟨5, "Puree", 18⟩, ⟨6, "Kippenballetjes", 6⟩,
   ⟨7, "Spaghettisaus", 12⟩, ⟨8, "Hamburgers", 6⟩]

def seedFreezers : List Freezer :=
  [⟨1, "Berging"⟩, ⟨2, "Garage"⟩, ⟨3, "Kelder"⟩]

def seedDrawers : List Drawer :=
  [⟨1, "Schuif 1", 1⟩, ⟨2, "Schuif 2", 1⟩, ⟨3, "Schuif 3", 1⟩,
   ⟨4, "Schuif 4", 1⟩, ⟨5, "Schuif 5", 1⟩, ⟨6, "Schuif 1", 2⟩,
   ⟨7, "Schuif 2", 2⟩, ⟨8, "Schuif 3", 2⟩, ⟨9, "Schuif 1", 3⟩,
   ⟨10, "Schuif 2", 3⟩, ⟨11, "Schuif 3", 3⟩]

/-- The storage rows inserted by the first seed script (`date_out` given
explicitly in the insert, `available` left at its default `TRUE`). -/
def seedStoragePart001 : List StorageEntry :=
  [⟨1, 1, 1, 400, ⟨2023, 11, 8⟩, none, true⟩,
   ⟨2, 1, 1, 400, ⟨2023, 11, 8⟩, none, true⟩,
   ⟨3, 1, 1, 400, ⟨2023, 11, 8⟩, none, true⟩,
   ⟨4, 1, 1, 400, ⟨2023, 11, 8⟩, none, true⟩,
   ⟨5, 1, 1, 400, ⟨2023, 8, 10⟩, none, true⟩,
   ⟨6, 1, 1, 600, ⟨2023, 8, 10⟩, none, true⟩,
   ⟨7, 1, 1, 600, ⟨2023, 8, 10⟩, none, true⟩,
   ⟨8, 1, 1, 600, ⟨2023, 8, 10⟩, none, true⟩,
   ⟨9, 2, 6, 300, ⟨2019, 8, 10⟩, none, true⟩,
   ⟨10, 2, 6, 300, ⟨2023, 8, 10⟩, none, true⟩,
   ⟨11, 2, 6, 300, ⟨2023, 8, 10⟩, none, true⟩,
   ⟨12, 4, 8, 150, ⟨2023, 5, 21⟩, none, true⟩,
   ⟨13, 4, 8, 150, ⟨2023, 5, 21⟩, none, true⟩,
   ⟨14, 4, 8, 150, ⟨2018, 5, 21⟩, none, true⟩,
   ⟨15, 3, 9, 300, ⟨2023, 5, 21⟩, none, true⟩,
   ⟨16, 3, 9, 300, ⟨2023, 5, 21⟩, none, true⟩,
   ⟨17, 3, 9, 300, ⟨2023, 5, 21⟩, none, true⟩,
   ⟨18, 8, 10, 200, ⟨2018, 6, 2⟩, none, true⟩,
   ⟨19, 8, 10, 200, ⟨2023, 10, 4⟩, none, true⟩,
   ⟨20, 8, 10, 200, ⟨2023, 10, 4⟩, none, true⟩,
   ⟨21, 8, 10, 200, ⟨2023, 10, 4⟩, none, true⟩,
   ⟨22, 8, 10, 200, ⟨2023, 10, 4⟩, none, true⟩,
   ⟨23, 8, 10, 200, ⟨2023, 10, 4⟩, none, true⟩,
   ⟨24, 6, 4, 350, ⟨2023, 7, 13⟩, none, true⟩,
   ⟨25, 5, 7, 600, ⟨2023, 7, 13⟩, none, true⟩,
   ⟨26, 3, 6, 400, ⟨2023, 7, 13⟩, none, true⟩,
   ⟨27, 4, 4, 500, ⟨2023, 7, 13⟩, none, true⟩,
   ⟨28, 4, 4, 500, ⟨2023, 7, 13⟩, none, true⟩,
   ⟨29, 4, 4, 500, ⟨2023, 7, 13⟩, none, true⟩,
   ⟨30, 4, 4, 500, ⟨2023, 7, 13⟩, none, true⟩,
   ⟨31, 7, 2, Rat.divInt 6433 10, ⟨2023, 8, 10⟩, none, true⟩,
   ⟨32, 7, 2, Rat.divInt 6533 10, ⟨2023, 8, 12⟩, none, true⟩,
   ⟨33, 7, 2, Rat.divInt 6333 10, ⟨2023, 8, 14⟩, none, true⟩,
   ⟨34, 7, 2, Rat.divInt 6233 10, ⟨2023, 8, 31⟩, none, true⟩,
   ⟨35, 7, 2, Rat.divInt 6633 10, ⟨2023, 9, 10⟩, none, true⟩,
   ⟨36, 7, 2, Rat.divInt 6533 10, ⟨2023, 9, 10⟩, some ⟨2024, 7, 1⟩, true⟩,
   ⟨37, 7, 2, Rat.divInt 6633 10, ⟨2023, 9, 10⟩, some ⟨2023, 12, 23⟩, true⟩]

/-- The storage rows of the second seed script after its two `UPDATE`
statements: row 18 has `available = false` with no `date_out`; row 23 has
`available = false` and `date_out = '2023-11-10'`. -/
def seedStoragePart002 : List StorageEntry :=
  [⟨1, 1, 1, 400, ⟨2023, 11, 8⟩, none, true⟩,
   ⟨2, 1, 1, 400, ⟨2023, 11, 8⟩, none, true⟩,
   ⟨3, 1, 1, 400, ⟨2023, 11, 8⟩, none, true⟩,
   ⟨4, 1, 1, 400, ⟨2023, 11, 8⟩, none, true⟩,
   ⟨5, 1, 1, 400, ⟨2023, 8, 10⟩, none, true⟩,
   ⟨6, 1, 1, 600, ⟨2023, 8, 10⟩, none, true⟩,
   ⟨7, 1, 1, 600, ⟨2023, 8, 10⟩, none, true⟩,
   ⟨8, 1, 1, 600, ⟨2023, 8, 10⟩, none, true⟩,
   ⟨9, 2, 6, 300, ⟨2019, 8, 10⟩, none, true⟩,
   ⟨10, 2, 6, 300, ⟨2023, 8, 10⟩, none, true⟩,
   ⟨11, 2, 6, 300, ⟨2023, 8, 10⟩, none, true⟩,
   ⟨12, 4, 8, 150, ⟨2023, 5, 21⟩, none, true⟩,
   ⟨13, 4, 8, 150, ⟨2023, 5, 21⟩, none, true⟩,
   ⟨14, 4, 8, 150, ⟨2018, 5, 21⟩, none, true⟩,
   ⟨15, 3, 9, 300, ⟨2023, 5, 21⟩, none, true⟩,
   ⟨16, 3, 9, 300, ⟨2023, 5, 21⟩, none, true⟩,
   ⟨17, 3, 9, 300, ⟨2023, 5, 21⟩, none, true⟩,
   ⟨18, 8, 10, 200, ⟨2018, 6, 2⟩, none, false⟩,
   ⟨19, 8, 10, 200, ⟨2023, 10, 4⟩, none, true⟩,
   ⟨20, 8, 10, 200, ⟨2023, 10, 4⟩, none, true⟩,
   ⟨21, 8, 10, 200, ⟨2023, 10, 4⟩, none, true⟩,
   ⟨22, 8, 10, 200, ⟨2023, 10, 4⟩, none, true⟩,
   ⟨23, 8, 10, 200, ⟨2023, 10, 4⟩, some ⟨2023, 11, 10⟩, false⟩,
   ⟨24, 6, 4, 350, ⟨2023, 7, 13⟩, none, true⟩,
   ⟨25, 5, 7, 600, ⟨2023, 7, 13⟩, none, true⟩,
   ⟨26, 3, 6, 400, ⟨2023, 7, 13⟩, none, true⟩,
   ⟨27, 4, 4, 500, ⟨2023, 7, 13⟩, none, true⟩,
   ⟨28, 4, 4, 500, ⟨2023, 7, 13⟩, none, true⟩,
   ⟨29, 4, 4, 500, ⟨2023, 7, 13⟩, none, true⟩,
   ⟨30, 4, 4, 500, ⟨2023, 7, 13⟩, none, true⟩,
   ⟨31, 7, 2, Rat.divInt 6433 10, ⟨2023, 8, 10⟩, none, true⟩,
   ⟨32, 7, 2, Rat.divInt 6533 10, ⟨2023, 8, 12⟩, none, true⟩,
   ⟨33, 7, 2, Rat.divInt 6333 10, ⟨2023, 8, 14⟩, none, true⟩,
   ⟨34, 7, 2, Rat.divInt 6233 10, ⟨2023, 8, 31⟩, none, true⟩,
   ⟨35, 7, 2, Rat.divInt 6633 10, ⟨2023, 9, 10⟩, none, true⟩,
   ⟨36, 7, 2, Rat.divInt 6533 10, ⟨2023, 9, 10⟩, none, true⟩,
   ⟨37, 7, 2, Rat.divInt 6633 10, ⟨2023, 9, 10⟩, none, true⟩]

/-- The database state after running the first seed script. -/
def seedPart001 : Store :=
  { freezers := seedFreezers, drawers := seedDrawers
    products := seedProducts, storage := seedStoragePart001
    nextFreezerId := 4, nextDrawerId := 12, nextProductId := 9
    nextStorageId := 38 }

/-- The database state after running the second seed script (inserts and
the two updates). -/
def seedPart002 : Store :=
  { freezers := seedFreezers, drawers := seedDrawers
    products := seedProducts, storage := seedStoragePart002
    nextFreezerId := 4, nextDrawerId := 12, nextProductId := 9
    nextStorageId := 38 }

/-! ## Store invariants and their preservation -/

/-- Referential integrity: the `REFERENCES` clauses of `up.sql`. Every
drawer references an existing freezer, every storage entry references an
existing product and an existing drawer. -/
def refIntegrity (s : Store) : Prop :=
  (∀ d ∈ s.drawers, d.freezer_id ∈ s.freezers.map Freezer.freezer_id) ∧
  (∀ e ∈ s.storage, e.product_id ∈ s.products.map Product.product_id ∧
    e.drawer_id ∈ s.drawers.map Drawer.drawer_id)

/-- The well-formedness invariant maintained by the entity store: the
schema constraints, freshness of the `SERIAL` counters, and the
value-level invariants of §3 of the spec (`date_out` not before `date_in`,
positive weights, positive expiration months). -/
def WF (s : Store) : Prop :=
  schemaOk s ∧
  (∀ f ∈ s.freezers, f.freezer_id < s.nextFreezerId) ∧
  (∀ d ∈ s.drawers, d.drawer_id < s.nextDrawerId) ∧
  (∀ p ∈ s.products, p.product_id < s.nextProductId) ∧
  (∀ e ∈ s.storage, e.storage_id < s.nextStorageId) ∧
  (∀ e ∈ s.storage, ∀ dOut, e.date_out = some dOut → dateLe e.date_in dOut) ∧
  (∀ e ∈ s.storage, 0 < e.weight_grams) ∧
  (∀ p ∈ s.products, 0 < p.expiration_months)

theorem dateLe_of_not_lt {a b : Date} (h : ¬ dateLt a b) : dateLe b a := by
  unfold dateLt at h; unfold dateLe; omega

theorem wf_empty : WF emptyStore := by
  constructor
  · exact ⟨List.nodup_nil, List.nodup_nil, List.nodup_nil, List.nodup_nil,
      by simp [emptyStore], List.nodup_nil, List.nodup_nil, List.nodup_nil,
      by simp [emptyStore]⟩
  · simp [emptyStore]

theorem notMem_map_of_lt {α : Type} {l : List α} {f : α → Nat} {n : Nat}
    (hb : ∀ a ∈ l, f a < n) : n ∉ l.map f := by
  intro hmem
  obtain ⟨a, ha, hfa⟩ := List.mem_map.1 hmem
  have := hb a ha
  omega

theorem nodup_append_fresh {α : Type} {l : List α} {f : α → Nat} {a : α}
    {n : Nat} (hnd : (l.map f).Nodup) (hb : ∀ x ∈ l, f x < n) (hfa : f a = n) :
    ((l ++ [a]).map f).Nodup := by
  rw [List.map_append, List.map_singleton]
  rw [List.nodup_append]
  refine ⟨hnd, List.nodup_singleton _, ?_⟩
  intro x hx hx2
  rw [List.mem_singleton] at hx2
  subst hx2
  exact notMem_map_of_lt hb (hfa ▸ hx)

theorem wf_createFreezer {s s2 : Store} {name : String}
    (hwf : WF s) (h : createFreezer s name = .ok s2) : WF s2 := by
  obtain ⟨⟨h1, h2, h3, h4, h5, h6, h7, h8, h9⟩, hbf, hbd, hbp, hbs, hdate, hw, hm⟩ := hwf
  unfold createFreezer at h
  by_cases hc : name ∈ s.freezers.map Freezer.name
  · rw [if_pos hc] at h; exact absurd h (by simp)
  rw [if_neg hc] at h
  injection h with h
  subst h
  refine ⟨⟨nodup_append_fresh h1 hbf rfl, ?_, h3, h4, ?_, h6, h7, h8, h9⟩,
    ?_, hbd, hbp, hbs, hdate, hw, hm⟩
  · rw [List.map_append, List.map_singleton, List.nodup_append]
    refine ⟨h2, List.nodup_singleton _, ?_⟩
    intro x hx hx2
    rw [List.mem_singleton] at hx2
    subst hx2
    exact hc hx
  · intro d hd
    rw [List.map_append]
    exact List.mem_append_left _ (h5 d hd)
  · intro f hf
    rcases List.mem_append.1 hf with hf | hf
    · have := hbf f hf; simp only []; omega
    · rw [List.mem_singleton] at hf; subst hf; simp

theorem wf_createDrawer {s s2 : Store} {fid : Nat} {name : String}
    (hwf : WF s) (h : createDrawer s fid name = .ok s2) : WF s2 := by
  obtain ⟨⟨h1, h2, h3, h4, h5, h6, h7, h8, h9⟩, hbf, hbd, hbp, hbs, hdate, hw, hm⟩ := hwf
  unfold createDrawer at h
  by_cases hc1 : fid ∉ s.freezers.map Freezer.freezer_id
  · rw [if_pos hc1] at h; exact absurd h (by simp)
  rw [if_neg hc1] at h
  push_neg at hc1
  by_cases hc2 : (fid, name) ∈ s.drawers.map (fun d => (d.freezer_id, d.name))
  · rw [if_pos hc2] at h; exact absurd h (by simp)
  rw [if_neg hc2] at h
  injection h with h
  subst h
  refine ⟨⟨h1, h2, nodup_append_fresh h3 hbd rfl, ?_, ?_, h6, h7, h8, ?_⟩,
    hbf, ?_, hbp, hbs, hdate, hw, hm⟩
  · rw [List.map_append, List.map_singleton, List.nodup_append]
    refine ⟨h4, List.nodup_singleton _, ?_⟩
    intro x hx hx2
    rw [List.mem_singleton] at hx2
    subst hx2
    exact hc2 hx
  · intro d hd
    rcases List.mem_append.1 hd with hd | hd
    · exact h5 d hd
    · rw [List.mem_singleton] at hd; subst hd; exact hc1
  · intro e he
    refine ⟨(h9 e he).1, ?_⟩
    rw [List.map_append]
    exact List.mem_append_left _ (h9 e he).2
  · intro d hd
    rcases List.mem_append.1 hd with hd | hd
    · have := hbd d hd; simp only []; omega
    · rw [List.mem_singleton] at hd; subst hd; simp

theorem wf_createProduct {s s2 : Store} {name : String} {months : Int}
    (hwf : WF s) (h : createProduct s name months = .ok s2) : WF s2 := by
  obtain ⟨⟨h1, h2, h3, h4, h5, h6, h7, h8, h9⟩, hbf, hbd, hbp, hbs, hdate, hw, hm⟩ := hwf
  unfold createProduct at h
  by_cases hc1 : name ∈ s.products.map Product.name
  · rw [if_pos hc1] at h; exact absurd h (by simp)
  rw [if_neg hc1] at h
  by_cases hc2 : months ≤ 0
  · rw [if_pos hc2] at h; exact absurd h (by simp)
  rw [if_neg hc2] at h
  injection h with h
  subst h
  refine ⟨⟨h1, h2, h3, h4, h5, nodup_append_fresh h6 hbp rfl, ?_, h8, ?_⟩,
    hbf, hbd, ?_, hbs, hdate, hw, ?_⟩
  · rw [List.map_append, List.map_singleton, List.nodup_append]
    refine ⟨h7, List.nodup_singleton _, ?_⟩
    intro x hx hx2
    rw [List.mem_singleton] at hx2
    subst hx2
    exact hc1 hx
  · intro e he
    refine ⟨?_, (h9 e he).2⟩
    rw [List.map_append]
    exact List.mem_append_left _ (h9 e he).1
  · intro p hp
    rcases List.mem_append.1 hp with hp | hp
    · have := hbp p hp; simp only []; omega
    · rw [List.mem_singleton] at hp; subst hp; simp
  · intro p hp
    rcases List.mem_append.1 hp with hp | hp
    · exact hm p hp
    · rw [List.mem_singleton] at hp; subst hp; exact lt_of_not_le hc2

theorem wf_createStorageEntry {s s2 : Store} {pid did : Nat} {w : ℚ}
    {dateIn : Date} (hwf : WF s)
    (h : createStorageEntry s pid did w dateIn = .ok s2) : WF s2 := by
  obtain ⟨⟨h1, h2, h3, h4, h5, h6, h7, h8, h9⟩, hbf, hbd, hbp, hbs, hdate, hw, hm⟩ := hwf
  unfold createStorageEntry at h
  by_cases hc1 : pid ∉ s.products.map Product.product_id
  · rw [if_pos hc1] at h; exact absurd h (by simp)
  rw [if_neg hc1] at h
  push_neg at hc1
  by_cases hc2 : did ∉ s.drawers.map Drawer.drawer_id
  · rw [if_pos hc2] at h; exact absurd h (by simp)
  rw [if_neg hc2] at h
  push_neg at hc2
  by_cases hc3 : w ≤ 0
  · rw [if_pos hc3] at h; exact absurd h (by simp)
  rw [if_neg hc3] at h
  injection h with h
  subst h
  refine ⟨⟨h1, h2, h3, h4, h5, h6, h7, nodup_append_fresh h8 hbs rfl, ?_⟩,
    hbf, hbd, hbp, ?_, ?_, ?_, hm⟩
  · intro e he
    rcases List.mem_append.1 he with he | he
    · exact h9 e he
    · rw [List.mem_singleton] at he; subst he; exact ⟨hc1, hc2⟩
  · intro e he
    rcases List.mem_append.1 he with he | he
    · have := hbs e he; simp only []; omega
    · rw [List.mem_singleton] at he; subst he; simp
  · intro e he
    rcases List.mem_append.1 he with he | he
    · exact hdate e he
    · rw [List.mem_singleton] at he; subst he; intro dOut hd; cases hd
  · intro e he
    rcases List.mem_append.1 he with he | he
    · exact hw e he
    · rw [List.mem_singleton] at he; subst he
      simp only []
      exact lt_of_not_le hc3

theorem nodup_map_filter {α β : Type} {l : List α} {f : α → β} {p : α → Bool}
    (h : (l.map f).Nodup) : ((l.filter p).map f).Nodup :=
  List.Nodup.sublist (List.Sublist.map f (List.filter_sublist l)) h

theorem wf_checkOut {s s2 : Store} {sid : Nat} {dOut : Date}
    (hwf : WF s) (h : checkOut s sid dOut = .ok s2) : WF s2 := by
  obtain ⟨⟨h1, h2, h3, h4, h5, h6, h7, h8, h9⟩, hbf, hbd, hbp, hbs, hdate, hw, hm⟩ := hwf
  unfold checkOut at h
  cases hfind : s.storage.find? (fun e => e.storage_id == sid) with
  | none => rw [hfind] at h; exact absurd h (by simp)
  | some efound =>
  simp only [hfind] at h
  by_cases hav : efound.available = false
  · rw [if_pos hav] at h; exact absurd h (by simp)
  rw [if_neg hav] at h
  by_cases hdlt : dateLt dOut efound.date_in
  · rw [if_pos hdlt] at h; exact absurd h (by simp)
  rw [if_neg hdlt] at h
  injection h with h
  subst h
  have hefound_mem : efound ∈ s.storage := List.mem_of_find?_eq_some hfind
  have hefound_id : efound.storage_id = sid := by simpa using List.find?_some hfind
  have hid : ∀ e2 : StorageEntry,
      (if e2.storage_id = sid then
        { e2 with available := false, date_out := some dOut } else e2).storage_id
      = e2.storage_id := by
    intro e2; split <;> rfl
  have hmap : (s.storage.map (fun e2 =>
      if e2.storage_id = sid then
        { e2 with available := false, date_out := some dOut } else e2)).map
      StorageEntry.storage_id = s.storage.map StorageEntry.storage_id := by
    rw [List.map_map]
    exact List.map_congr_left (fun a _ => hid a)
  refine ⟨⟨h1, h2, h3, h4, h5, h6, h7, ?_, ?_⟩, hbf, hbd, hbp, ?_, ?_, ?_, hm⟩
  · rw [hmap]; exact h8
  · intro e he
    obtain ⟨e0, he0, he0e⟩ := List.mem_map.1 he
    subst he0e
    split
    · exact h9 e0 he0
    · exact h9 e0 he0
  · intro e he
    obtain ⟨e0, he0, he0e⟩ := List.mem_map.1 he
    subst he0e
    have := hbs e0 he0
    split
    · exact this
    · exact this
  · intro e he dOut2 hdo
    obtain ⟨e0, he0, he0e⟩ := List.mem_map.1 he
    subst he0e
    by_cases hc : e0.storage_id = sid
    · rw [if_pos hc] at hdo ⊢
      have he0q : e0 = efound :=
        List.inj_on_of_nodup_map h8 he0 hefound_mem (by rw [hc, hefound_id])
      have hd2 : dOut = dOut2 := by simpa using hdo
      subst hd2
      show dateLe e0.date_in dOut
      rw [he0q]
      exact dateLe_of_not_lt hdlt
    · rw [if_neg hc] at hdo ⊢
      exact hdate e0 he0 dOut2 hdo
  · intro e he
    obtain ⟨e0, he0, he0e⟩ := List.mem_map.1 he
    subst he0e
    have := hw e0 he0
    split
    · exact this
    · exact this

theorem wf_deleteFreezer {s s2 : Store} {fid : Nat}
    (hwf : WF s) (h : deleteFreezer s fid = .ok s2) : WF s2 := by
  obtain ⟨⟨h1, h2, h3, h4, h5, h6, h7, h8, h9⟩, hbf, hbd, hbp, hbs, hdate, hw, hm⟩ := hwf
  unfold deleteFreezer at h
  by_cases hc : fid ∈ s.freezers.map Freezer.freezer_id
  case neg => rw [if_neg hc] at h; exact absurd h (by simp)
  rw [if_pos hc] at h
  injection h with h
  subst h
  refine ⟨⟨nodup_map_filter h1, nodup_map_filter h2, nodup_map_filter h3,
    nodup_map_filter h4, ?_, h6, h7, nodup_map_filter h8, ?_⟩,
    fun f hf => hbf f (List.mem_of_mem_filter hf),
    fun d hd => hbd d (List.mem_of_mem_filter hd), hbp,
    fun e he => hbs e (List.mem_of_mem_filter he),
    fun e he => hdate e (List.mem_of_mem_filter he),
    fun e he => hw e (List.mem_of_mem_filter he), hm⟩
  · intro d hd
    rw [List.mem_filter] at hd
    obtain ⟨hdmem, hdp⟩ := hd
    rw [decide_eq_true_eq] at hdp
    obtain ⟨f, hf, hfe⟩ := List.mem_map.1 (h5 d hdmem)
    refine List.mem_map.2 ⟨f, List.mem_filter.2 ⟨hf, ?_⟩, hfe⟩
    rw [decide_eq_true_eq]
    rw [hfe]
    exact hdp
  · intro e he
    rw [List.mem_filter] at he
    obtain ⟨hemem, hep⟩ := he
    rw [decide_eq_true_eq] at hep
    refine ⟨(h9 e hemem).1, ?_⟩
    obtain ⟨d0, hd0, hd0e⟩ := List.mem_map.1 (h9 e hemem).2
    refine List.mem_map.2 ⟨d0, List.mem_filter.2 ⟨hd0, ?_⟩, hd0e⟩
    rw [decide_eq_true_eq]
    intro hd0f
    exact hep ⟨d0, hd0, hd0f, hd0e⟩

theorem wf_deleteDrawer {s s2 : Store} {did : Nat}
    (hwf : WF s) (h : deleteDrawer s did = .ok s2) : WF s2 := by
  obtain ⟨⟨h1, h2, h3, h4, h5, h6, h7, h8, h9⟩, hbf, hbd, hbp, hbs, hdate, hw, hm⟩ := hwf
  unfold deleteDrawer at h
  by_cases hc : did ∈ s.drawers.map Drawer.drawer_id
  case neg => rw [if_neg hc] at h; exact absurd h (by simp)
  rw [if_pos hc] at h
  injection h with h
  subst h
  refine ⟨⟨h1, h2, nodup_map_filter h3, nodup_map_filter h4,
    fun d hd => h5 d (List.mem_of_mem_filter hd), h6, h7,
    nodup_map_filter h8, ?_⟩, hbf,
    fun d hd => hbd d (List.mem_of_mem_filter hd), hbp,
    fun e he => hbs e (List.mem_of_mem_filter he),
    fun e he => hdate e (List.mem_of_mem_filter he),
    fun e he => hw e (List.mem_of_mem_filter he), hm⟩
  intro e he
  rw [List.mem_filter] at he
  obtain ⟨hemem, hep⟩ := he
  rw [decide_eq_true_eq] at hep
  refine ⟨(h9 e hemem).1, ?_⟩
  obtain ⟨d0, hd0, hd0e⟩ := List.mem_map.1 (h9 e hemem).2
  refine List.mem_map.2 ⟨d0, List.mem_filter.2 ⟨hd0, ?_⟩, hd0e⟩
  rw [decide_eq_true_eq]
  rw [hd0e]
  exact hep

theorem wf_deleteProduct {s s2 : Store} {pid : Nat}
    (hwf : WF s) (h : deleteProduct s pid = .ok s2) : WF s2 := by
  obtain ⟨⟨h1, h2, h3, h4, h5, h6, h7, h8, h9⟩, hbf, hbd, hbp, hbs, hdate, hw, hm⟩ := hwf
  unfold deleteProduct at h
  by_cases hc : pid ∈ s.products.map Product.product_id
  case neg => rw [if_neg hc] at h; exact absurd h (by simp)
  rw [if_pos hc] at h
  injection h with h
  subst h
  refine ⟨⟨h1, h2, h3, h4, h5, nodup_map_filter h6, nodup_map_filter h7,
    nodup_map_filter h8, ?_⟩, hbf, hbd,
    fun p hp => hbp p (List.mem_of_mem_filter hp),
    fun e he => hbs e (List.mem_of_mem_filter he),
    fun e he => hdate e (List.mem_of_mem_filter he),
    fun e he => hw e (List.mem_of_mem_filter he),
    fun p hp => hm p (List.mem_of_mem_filter hp)⟩
  intro e he
  rw [List.mem_filter] at he
  obtain ⟨hemem, hep⟩ := he
  rw [decide_eq_true_eq] at hep
  refine ⟨?_, (h9 e hemem).2⟩
  obtain ⟨p0, hp0, hp0e⟩ := List.mem_map.1 (h9 e hemem).1
  refine List.mem_map.2 ⟨p0, List.mem_filter.2 ⟨hp0, ?_⟩, hp0e⟩
  rw [decide_eq_true_eq]
  rw [hp0e]
  exact hep

/-- Every successful operation preserves the well-formedness invariant. -/
theorem wf_runOp {s s2 : Store} {op : Op} (hwf : WF s)
    (h : runOp s op = .ok s2) : WF s2 := by
  cases op with
  | createFreezer name => exact wf_createFreezer hwf h
  | createDrawer fid name => exact wf_createDrawer hwf h
  | createProduct name months => exact wf_createProduct hwf h
  | createStorageEntry pid did w dateIn => exact wf_createStorageEntry hwf h
  | checkOut sid dOut => exact wf_checkOut hwf h
  | deleteFreezer fid => exact wf_deleteFreezer hwf h
  | deleteDrawer did => exact wf_deleteDrawer hwf h
  | deleteProduct pid => exact wf_deleteProduct hwf h

/-- Every operation (successful or failed) preserves well-formedness. -/
theorem wf_applyOp {s : Store} (op : Op) (hwf : WF s) : WF (applyOp s op) := by
  unfold applyOp
  cases h : runOp s op with
  | ok s2 => exact wf_runOp hwf h
  | error e => exact hwf

/-- Every reachable state is well-formed. -/
theorem wf_of_reachable {s : Store} (h : Reachable s) : WF s := by
  obtain ⟨ops, rfl⟩ := h
  suffices hgen : ∀ (ops : List Op) (t : Store), WF t → WF (ops.foldl applyOp t) by
    exact hgen ops emptyStore wf_empty
  intro ops
  induction ops with
  | nil => intro t ht; exact ht
  | cons op rest ih =>
    intro t ht
    exact ih (applyOp t op) (wf_applyOp op ht)

instance (s : Store) : Decidable (refIntegrity s) := by
  unfold refIntegrity; infer_instance

theorem refIntegrity_deleteFreezer {s : Store} (fid : Nat)
    (href : refIntegrity s) :
    refIntegrity (applyOp s (.deleteFreezer fid)) ∧
    (∀ d ∈ (applyOp s (.deleteFreezer fid)).drawers, ¬ d.freezer_id = fid) ∧
    (∀ e ∈ (applyOp s (.deleteFreezer fid)).storage,
      ∀ d ∈ s.drawers, d.freezer_id = fid → ¬ e.drawer_id = d.drawer_id) := by
  obtain ⟨h5, h9⟩ := href
  by_cases hc : fid ∈ s.freezers.map Freezer.freezer_id
  case neg =>
    simp only [applyOp, runOp, deleteFreezer, if_neg hc]
    refine ⟨⟨h5, h9⟩, ?_, ?_⟩
    · intro d hd hdf
      exact hc (hdf ▸ h5 d hd)
    · intro e he d hd hdf
      exact absurd (hdf ▸ h5 d hd) hc
  simp only [applyOp, runOp, deleteFreezer, if_pos hc]
  refine ⟨⟨?_, ?_⟩, ?_, ?_⟩
  · intro d hd
    rw [List.mem_filter] at hd
    obtain ⟨hdmem, hdp⟩ := hd
    rw [decide_eq_true_eq] at hdp
    obtain ⟨f, hf, hfe⟩ := List.mem_map.1 (h5 d hdmem)
    refine List.mem_map.2 ⟨f, List.mem_filter.2 ⟨hf, ?_⟩, hfe⟩
    rw [decide_eq_true_eq, hfe]
    exact hdp
  · intro e he
    rw [List.mem_filter] at he
    obtain ⟨hemem, hep⟩ := he
    rw [decide_eq_true_eq] at hep
    refine ⟨(h9 e hemem).1, ?_⟩
    obtain ⟨d0, hd0, hd0e⟩ := List.mem_map.1 (h9 e hemem).2
    refine List.mem_map.2 ⟨d0, List.mem_filter.2 ⟨hd0, ?_⟩, hd0e⟩
    rw [decide_eq_true_eq]
    intro hd0f
    exact hep ⟨d0, hd0, hd0f, hd0e⟩
  · intro d hd
    rw [List.mem_filter] at hd
    rw [decide_eq_true_eq] at hd
    exact hd.2
  · intro e he d hd hdf hed
    rw [List.mem_filter] at he
    obtain ⟨hemem, hep⟩ := he
    rw [decide_eq_true_eq] at hep
    exact hep ⟨d, hd, hdf, hed.symm⟩

theorem refIntegrity_deleteDrawer {s : Store} (did : Nat)
    (href : refIntegrity s) :
    refIntegrity (applyOp s (.deleteDrawer did)) ∧
    (∀ e ∈ (applyOp s (.deleteDrawer did)).storage, ¬ e.drawer_id = did) := by
  obtain ⟨h5, h9⟩ := href
  by_cases hc : did ∈ s.drawers.map Drawer.drawer_id
  case neg =>
    simp only [applyOp, runOp, deleteDrawer, if_neg hc]
    refine ⟨⟨h5, h9⟩, ?_⟩
    intro e he hed
    exact hc (hed ▸ (h9 e he).2)
  simp only [applyOp, runOp, deleteDrawer, if_pos hc]
  refine ⟨⟨?_, ?_⟩, ?_⟩
  · intro d hd
    exact h5 d (List.mem_of_mem_filter hd)
  · intro e he
    rw [List.mem_filter] at he
    obtain ⟨hemem, hep⟩ := he
    rw [decide_eq_true_eq] at hep
    refine ⟨(h9 e hemem).1, ?_⟩
    obtain ⟨d0, hd0, hd0e⟩ := List.mem_map.1 (h9 e hemem).2
    refine List.mem_map.2 ⟨d0, List.mem_filter.2 ⟨hd0, ?_⟩, hd0e⟩
    rw [decide_eq_true_eq, hd0e]
    exact hep
  · intro e he
    rw [List.mem_filter] at he
    obtain ⟨_, hep⟩ := he
    rw [decide_eq_true_eq] at hep
    exact hep

theorem refIntegrity_deleteProduct {s : Store} (pid : Nat)
    (href : refIntegrity s) :
    refIntegrity (applyOp s (.deleteProduct pid)) ∧
    (∀ e ∈ (applyOp s (.deleteProduct pid)).storage, ¬ e.product_id = pid) := by
  obtain ⟨h5, h9⟩ := href
  by_cases hc : pid ∈ s.products.map Product.product_id
  case neg =>
    simp only [applyOp, runOp, deleteProduct, if_neg hc]
    refine ⟨⟨h5, h9⟩, ?_⟩
    intro e he hep
    exact hc (hep ▸ (h9 e he).1)
  simp only [applyOp, runOp, deleteProduct, if_pos hc]
  refine ⟨⟨?_, ?_⟩, ?_⟩
  · intro d hd
    exact h5 d hd
  · intro e he
    rw [List.mem_filter] at he
    obtain ⟨hemem, hep⟩ := he
    rw [decide_eq_true_eq] at hep
    refine ⟨?_, (h9 e hemem).2⟩
    obtain ⟨p0, hp0, hp0e⟩ := List.mem_map.1 (h9 e hemem).1
    refine List.mem_map.2 ⟨p0, List.mem_filter.2 ⟨hp0, ?_⟩, hp0e⟩
    rw [decide_eq_true_eq, hp0e]
    exact hep
  · intro e he
    rw [List.mem_filter] at he
    obtain ⟨_, hep⟩ := he
    rw [decide_eq_true_eq] at hep
    exact hep

/-- A database state that violates no constraint declared by `up.sql`
while holding a non-positive `weight_grams` and a non-positive
`expiration_months`: the schema has no CHECK constraint. -/
def uncheckedStore : Store :=
  { freezers := [⟨1, "Garage"⟩], drawers := [⟨1, "Schuif 1", 1⟩]
    products := [⟨1, "Brocoli", -3⟩]
    storage := [⟨1, 1, 1, Rat.divInt (-1) 1, ⟨2023, 1, 1⟩, none, true⟩]
    nextFreezerId := 2, nextDrawerId := 2, nextProductId := 2
    nextStorageId := 2 }

/-- The `weight_grams` values of the Spaghettisaus (product 7) rows
inserted by the seed scripts. -/
def spaghettisausWeights : List ℚ :=
  (seedStoragePart001.filter (fun e => e.product_id == 7)).map
    StorageEntry.weight_grams

/-! ## Claim theorems -/

/-- C6: freshness is the pure function of (entry, product, now) given by
calendar-month addition with day-of-month clamping to the last valid day
of the target month; `Expired` iff `now >= expiresOn`; for
`expiration_months = 6` and `date_in = 2023-05-21` it reports `Expired` at
`now = 2023-11-22`, `ExpiringSoon` at `now = 2023-11-10` and `Fresh` at
`now = 2023-09-01`. -/
theorem claim_C6_freshness :
    (∀ (dIn : Date) (m : Int) (now : Date),
      (freshnessStatus dIn m now = .Expired ↔
        rataDie (addMonthsClamped dIn m) ≤ rataDie now) ∧
      (freshnessStatus dIn m now = .ExpiringSoon ↔
        rataDie now < rataDie (addMonthsClamped dIn m) ∧
        rataDie (addMonthsClamped dIn m) - rataDie now ≤ 14) ∧
      (freshnessStatus dIn m now = .Fresh ↔
        14 < rataDie (addMonthsClamped dIn m) - rataDie now)) ∧
    addMonthsClamped ⟨2023, 5, 21⟩ 6 = ⟨2023, 11, 21⟩ ∧
    addMonthsClamped ⟨2023, 1, 31⟩ 1 = ⟨2023, 2, 28⟩ ∧
    addMonthsClamped ⟨2024, 1, 31⟩ 1 = ⟨2024, 2, 29⟩ ∧
    freshnessStatus ⟨2023, 5, 21⟩ 6 ⟨2023, 11, 22⟩ = .Expired ∧
    freshnessStatus ⟨2023, 5, 21⟩ 6 ⟨2023, 11, 10⟩ = .ExpiringSoon ∧
    freshnessStatus ⟨2023, 5, 21⟩ 6 ⟨2023, 9, 1⟩ = .Fresh := by
  refine ⟨?_, by decide, by decide, by decide, by decide, by decide, by decide⟩
  intro dIn m now
  unfold freshnessStatus
  by_cases h1 : rataDie (addMonthsClamped dIn m) ≤ rataDie now
  · rw [if_pos h1]
    refine ⟨⟨fun _ => h1, fun _ => rfl⟩, ?_, ?_⟩ <;>
      constructor <;> intro h <;> first
        | exact absurd h (by decide)
        | omega
  · rw [if_neg h1]
    by_cases h2 : rataDie (addMonthsClamped dIn m) - rataDie now ≤ 14
    · rw [if_pos h2]
      refine ⟨?_, ?_, ?_⟩ <;> constructor <;> intro h <;> first
        | exact absurd h (by decide)
        | exact ⟨by omega, h2⟩
        | omega
        | rfl
    · rw [if_neg h2]
      refine ⟨?_, ?_, ?_⟩ <;> constructor <;> intro h <;> first
        | exact absurd h (by decide)
        | omega
        | rfl

/-- C9: the schema does not tie `available` and `date_out` together — the
state built by the second seed script holds an entry with
`available = false` and `date_out = NULL`, the state built by the first
seed script holds entries with `available = true` and a non-null
`date_out`, both satisfying every constraint `up.sql` declares; and
membership in "current contents" (the default `availableOnly = true`
listing) is decided by `available` alone. -/
theorem claim_C9_available_dateOut_independent :
    schemaOk seedPart002 ∧
    (∃ e ∈ seedPart002.storage, e.available = false ∧ e.date_out = none) ∧
    schemaOk seedPart001 ∧
    (∃ e ∈ seedPart001.storage, e.available = true ∧ e.date_out ≠ none) ∧
    (∀ (s : Store) (now : Date) (e : StorageEntry),
      e ∈ listStorageEntries s ⟨none, none, none, true, none⟩ now ↔
        e ∈ s.storage ∧ e.available = true) := by
  refine ⟨by decide, by decide, by decide, by decide, ?_⟩
  intro s now e
  unfold listStorageEntries
  rw [List.mem_insertionSort, List.mem_filter]
  simp [entryMatches]

/-- C10: `weight_grams` is a `float4` column: the binary32 rounding of the
seed input `643.3` differs from `643.3`, and the binary32 sum of the
Spaghettisaus seed weights differs from their exact rational sum
`4533.1`. -/
theorem claim_C10_float4_rounding :
    storedWeight (Rat.divInt 6433 10) ≠ Rat.divInt 6433 10 ∧
    floatSumF32 spaghettisausWeights ≠ ratSum spaghettisausWeights ∧
    ratSum spaghettisausWeights = spaghettisausWeights.sum ∧
    ratSum spaghettisausWeights = Rat.divInt 45331 10 := by
  exact ⟨by decide, by decide, ratSum_eq_sum _, by decide⟩

/-- C2 counterexample: positivity is NOT enforced as a database-level
check constraint — a state holding `weight_grams = -1` and
`expiration_months = -3` satisfies every constraint declared by
`up.sql`. -/
theorem claim_C2_counterexample :
    schemaOk uncheckedStore ∧
    (∃ e ∈ uncheckedStore.storage, e.weight_grams ≤ 0) ∧
    (∃ p ∈ uncheckedStore.products, p.expiration_months ≤ 0) := by
  decide

/-- With distinct ids, `find?` by id locates exactly the member with that
id. -/
theorem find_by_id {l : List StorageEntry} {e : StorageEntry} {sid : Nat}
    (hnd : (l.map StorageEntry.storage_id).Nodup) (he : e ∈ l)
    (hid : e.storage_id = sid) :
    l.find? (fun x => x.storage_id == sid) = some e := by
  cases hf : l.find? (fun x => x.storage_id == sid) with
  | none =>
    rw [List.find?_eq_none] at hf
    exact absurd (by simp [hid]) (hf e he)
  | some e2 =>
    have he2 : e2 ∈ l := List.mem_of_find?_eq_some hf
    have hid2 : e2.storage_id = sid := by simpa using List.find?_some hf
    have : e2 = e := List.inj_on_of_nodup_map hnd he2 he (by rw [hid2, hid])
    rw [this]

theorem latch_core {s : Store}
    (hnd : (s.storage.map StorageEntry.storage_id).Nodup)
    {l2 : List StorageEntry} (hsub : ∀ x ∈ l2, x ∈ s.storage) :
    ∀ e ∈ s.storage, e.available = false → ∀ e2 ∈ l2,
      e2.storage_id = e.storage_id → e2.available = false := by
  intro e he hav e2 he2 hid
  have h := List.inj_on_of_nodup_map hnd (hsub e2 he2) he hid
  rw [h]
  exact hav

/-- No successful operation ever flips an unavailable entry back to
available. -/
theorem storage_latch_run {s s2 : Store} {op : Op} (hwf : WF s)
    (h : runOp s op = .ok s2) :
    ∀ e ∈ s.storage, e.available = false → ∀ e2 ∈ s2.storage,
      e2.storage_id = e.storage_id → e2.available = false := by
  obtain ⟨⟨h1, h2, h3, h4, h5, h6, h7, h8, h9⟩, hbf, hbd, hbp, hbs, hdate, hw, hm⟩ := hwf
  cases op with
  | createFreezer name =>
    simp only [runOp, createFreezer] at h
    by_cases hc : name ∈ s.freezers.map Freezer.name
    · rw [if_pos hc] at h; exact absurd h (by simp)
    · rw [if_neg hc] at h; injection h with h; subst h
      exact latch_core h8 (fun x hx => hx)
  | createDrawer fid name =>
    simp only [runOp, createDrawer] at h
    by_cases hc1 : fid ∉ s.freezers.map Freezer.freezer_id
    · rw [if_pos hc1] at h; exact absurd h (by simp)
    rw [if_neg hc1] at h
    by_cases hc2 : (fid, name) ∈ s.drawers.map (fun d => (d.freezer_id, d.name))
    · rw [if_pos hc2] at h; exact absurd h (by simp)
    rw [if_neg hc2] at h; injection h with h; subst h
    exact latch_core h8 (fun x hx => hx)
  | createProduct name months =>
    simp only [runOp, createProduct] at h
    by_cases hc1 : name ∈ s.products.map Product.name
    · rw [if_pos hc1] at h; exact absurd h (by simp)
    rw [if_neg hc1] at h
    by_cases hc2 : months ≤ 0
    · rw [if_pos hc2] at h; exact absurd h (by simp)
    rw [if_neg hc2] at h; injection h with h; subst h
    exact latch_core h8 (fun x hx => hx)
  | createStorageEntry pid did w dateIn =>
    simp only [runOp, createStorageEntry] at h
    by_cases hc1 : pid ∉ s.products.map Product.product_id
    · rw [if_pos hc1] at h; exact absurd h (by simp)
    rw [if_neg hc1] at h
    by_cases hc2 : did ∉ s.drawers.map Drawer.drawer_id
    · rw [if_pos hc2] at h; exact absurd h (by simp)
    rw [if_neg hc2] at h
    by_cases hc3 : w ≤ 0
    · rw [if_pos hc3] at h; exact absurd h (by simp)
    rw [if_neg hc3] at h; injection h with h; subst h
    intro e he hav e2 he2 hid
    rcases List.mem_append.1 he2 with hin | hin
    · exact latch_core h8 (fun x hx => hx) e he hav e2 hin hid
    · rw [List.mem_singleton] at hin
      subst hin
      have hb := hbs e he
      have hfresh : s.nextStorageId = e.storage_id := hid
      omega
  | checkOut sid dOut =>
    simp only [runOp, checkOut] at h
    cases hfind : s.storage.find? (fun x => x.storage_id == sid) with
    | none => rw [hfind] at h; exact absurd h (by simp)
    | some efound =>
    simp only [hfind] at h
    by_cases hav2 : efound.available = false
    · rw [if_pos hav2] at h; exact absurd h (by simp)
    rw [if_neg hav2] at h
    by_cases hdlt : dateLt dOut efound.date_in
    · rw [if_pos hdlt] at h; exact absurd h (by simp)
    rw [if_neg hdlt] at h; injection h with h; subst h
    intro e he hav e2 he2 hid
    obtain ⟨e0, he0, he0e⟩ := List.mem_map.1 he2
    subst he0e
    by_cases hcc : e0.storage_id = sid
    · rw [if_pos hcc]
    · rw [if_neg hcc] at hid ⊢
      have h := List.inj_on_of_nodup_map h8 he0 he hid
      rw [h]
      exact hav
  | deleteFreezer fid =>
    simp only [runOp, deleteFreezer] at h
    by_cases hc : fid ∈ s.freezers.map Freezer.freezer_id
    case neg => rw [if_neg hc] at h; exact absurd h (by simp)
    rw [if_pos hc] at h; injection h with h; subst h
    exact latch_core h8 (fun x hx => List.mem_of_mem_filter hx)
  | deleteDrawer did =>
    simp only [runOp, deleteDrawer] at h
    by_cases hc : did ∈ s.drawers.map Drawer.drawer_id
    case neg => rw [if_neg hc] at h; exact absurd h (by simp)
    rw [if_pos hc] at h; injection h with h; subst h
    exact latch_core h8 (fun x hx => List.mem_of_mem_filter hx)
  | deleteProduct pid =>
    simp only [runOp, deleteProduct] at h
    by_cases hc : pid ∈ s.products.map Product.product_id
    case neg => rw [if_neg hc] at h; exact absurd h (by simp)
    rw [if_pos hc] at h; injection h with h; subst h
    exact latch_core h8 (fun x hx => List.mem_of_mem_filter hx)

/-- C1: in every reachable state, creating a freezer or product whose name
exists, or a drawer whose (freezer, name) pair exists, fails with
`DuplicateName` and leaves the store unchanged; and freezer names,
product names, and (freezer, name) drawer pairs are duplicate-free. -/
theorem claim_C1_name_uniqueness :
    ∀ s : Store, Reachable s →
      ((∀ name, name ∈ s.freezers.map Freezer.name →
        runOp s (.createFreezer name) = .error .DuplicateName ∧
        applyOp s (.createFreezer name) = s) ∧
       (∀ name months, name ∈ s.products.map Product.name →
        runOp s (.createProduct name months) = .error .DuplicateName ∧
        applyOp s (.createProduct name months) = s) ∧
       (∀ fid name,
        (fid, name) ∈ s.drawers.map (fun d => (d.freezer_id, d.name)) →
        runOp s (.createDrawer fid name) = .error .DuplicateName ∧
        applyOp s (.createDrawer fid name) = s) ∧
       (s.freezers.map Freezer.name).Nodup ∧
       (s.products.map Product.name).Nodup ∧
       (s.drawers.map (fun d => (d.freezer_id, d.name))).Nodup) := by
  intro s hs
  obtain ⟨⟨h1, h2, h3, h4, h5, h6, h7, h8, h9⟩, _⟩ := wf_of_reachable hs
  refine ⟨?_, ?_, ?_, h2, h7, h4⟩
  · intro name hn
    have hrun : runOp s (.createFreezer name) = .error .DuplicateName := by
      simp only [runOp, createFreezer, if_pos hn]
    exact ⟨hrun, by simp only [applyOp, hrun]⟩
  · intro name months hn
    have hrun : runOp s (.createProduct name months) = .error .DuplicateName := by
      simp only [runOp, createProduct, if_pos hn]
    exact ⟨hrun, by simp only [applyOp, hrun]⟩
  · intro fid name hn
    have hfid : fid ∈ s.freezers.map Freezer.freezer_id := by
      obtain ⟨d, hd, hde⟩ := List.mem_map.1 hn
      have he : d.freezer_id = fid := congrArg Prod.fst hde
      exact he ▸ h5 d hd
    have hrun : runOp s (.createDrawer fid name) = .error .DuplicateName := by
      simp only [runOp, createDrawer, if_neg (not_not_intro hfid), if_pos hn]
    exact ⟨hrun, by simp only [applyOp, hrun]⟩

/-- C2 (amended): non-positive expiration months and non-positive weights
are rejected at write time with `InvalidArgument` (when no earlier guard
fires), and in every reachable state weights and expiration months are
positive; the database schema itself carries no check constraint
(see the counterexample). -/
theorem claim_C2_write_time_positivity :
    ∀ s : Store, Reachable s →
      ((∀ name months, name ∉ s.products.map Product.name → months ≤ 0 →
        runOp s (.createProduct name months) = .error .InvalidArgument ∧
        applyOp s (.createProduct name months) = s) ∧
       (∀ pid did (w : ℚ) dateIn, pid ∈ s.products.map Product.product_id →
        did ∈ s.drawers.map Drawer.drawer_id → w ≤ 0 →
        runOp s (.createStorageEntry pid did w dateIn) =
          .error .InvalidArgument ∧
        applyOp s (.createStorageEntry pid did w dateIn) = s) ∧
       (∀ e ∈ s.storage, 0 < e.weight_grams) ∧
       (∀ p ∈ s.products, 0 < p.expiration_months)) := by
  intro s hs
  obtain ⟨_, _, _, _, _, _, hwpos, hmpos⟩ := wf_of_reachable hs
  refine ⟨?_, ?_, hwpos, hmpos⟩
  · intro name months hn hm0
    have hrun : runOp s (.createProduct name months) = .error .InvalidArgument := by
      simp only [runOp, createProduct, if_neg hn, if_pos hm0]
    exact ⟨hrun, by simp only [applyOp, hrun]⟩
  · intro pid did w dateIn hp hd hw0
    have hrun : runOp s (.createStorageEntry pid did w dateIn) =
        .error .InvalidArgument := by
      simp only [runOp, createStorageEntry, if_neg (not_not_intro hp),
        if_neg (not_not_intro hd), if_pos hw0]
    exact ⟨hrun, by simp only [applyOp, hrun]⟩

/-- C3: deletion cascades along the ownership edges — after deleting a
freezer no drawer of it and no storage entry of those drawers remains;
after deleting a drawer or product no storage entry referencing it
remains; and referential integrity survives every delete. -/
theorem claim_C3_cascade_delete :
    ∀ s : Store, refIntegrity s →
      ((∀ fid,
        (∀ d ∈ (applyOp s (.deleteFreezer fid)).drawers, ¬ d.freezer_id = fid) ∧
        (∀ e ∈ (applyOp s (.deleteFreezer fid)).storage,
          ∀ d ∈ s.drawers, d.freezer_id = fid → ¬ e.drawer_id = d.drawer_id) ∧
        refIntegrity (applyOp s (.deleteFreezer fid))) ∧
       (∀ did,
        (∀ e ∈ (applyOp s (.deleteDrawer did)).storage, ¬ e.drawer_id = did) ∧
        refIntegrity (applyOp s (.deleteDrawer did))) ∧
       (∀ pid,
        (∀ e ∈ (applyOp s (.deleteProduct pid)).storage, ¬ e.product_id = pid) ∧
        refIntegrity (applyOp s (.deleteProduct pid)))) := by
  intro s href
  refine ⟨?_, ?_, ?_⟩
  · intro fid
    obtain ⟨ha, hb, hc⟩ := refIntegrity_deleteFreezer fid href
    exact ⟨hb, hc, ha⟩
  · intro did
    obtain ⟨ha, hb⟩ := refIntegrity_deleteDrawer did href
    exact ⟨hb, ha⟩
  · intro pid
    obtain ⟨ha, hb⟩ := refIntegrity_deleteProduct pid href
    exact ⟨hb, ha⟩

/-- C4: in every reachable state, a present `date_out` is never earlier
than `date_in`; and checking out an available entry with a `dateOut`
strictly before its `date_in` fails with `InvalidArgument` and leaves the
store unchanged. -/
theorem claim_C4_dateOut_not_before_dateIn :
    ∀ s : Store, Reachable s →
      ((∀ e ∈ s.storage, ∀ dOut, e.date_out = some dOut →
        dateLe e.date_in dOut) ∧
       (∀ e ∈ s.storage, e.available = true → ∀ dOut,
        dateLt dOut e.date_in →
        runOp s (.checkOut e.storage_id dOut) = .error .InvalidArgument ∧
        applyOp s (.checkOut e.storage_id dOut) = s)) := by
  intro s hs
  obtain ⟨⟨_, _, _, _, _, _, _, h8, _⟩, _, _, _, _, hdate, _, _⟩ :=
    wf_of_reachable hs
  refine ⟨hdate, ?_⟩
  intro e he hav dOut hlt
  have hfind := find_by_id h8 he rfl
  have havf : ¬ (e.available = false) := by rw [hav]; intro hcon; cases hcon
  have hrun : runOp s (.checkOut e.storage_id dOut) =
      .error .InvalidArgument := by
    simp only [runOp, checkOut, hfind, if_neg havf, if_pos hlt]
  exact ⟨hrun, by simp only [applyOp, hrun]⟩

/-- C5: entries are created available; the first check-out of an available
entry succeeds, flips `available` to false and sets `date_out`; a check-out
of an unavailable entry (in particular a second check-out) fails with
`NotFound`; and no operation ever flips `available` back from false to
true. -/
theorem claim_C5_checkout_exactly_once :
    ∀ s : Store, Reachable s →
      ((∀ pid did w dateIn s2,
         runOp s (.createStorageEntry pid did w dateIn) = .ok s2 →
         ∀ e ∈ s2.storage, e ∉ s.storage →
           e.available = true ∧ e.date_out = none) ∧
       (∀ e ∈ s.storage, e.available = true → ∀ dOut,
         ¬ dateLt dOut e.date_in →
         ∃ s2, runOp s (.checkOut e.storage_id dOut) = .ok s2 ∧
           (∀ e2 ∈ s2.storage, e2.storage_id = e.storage_id →
             e2.available = false ∧ e2.date_out = some dOut) ∧
           (∀ dOut2, runOp s2 (.checkOut e.storage_id dOut2) =
             .error .NotFound)) ∧
       (∀ e ∈ s.storage, e.available = false → ∀ dOut,
         runOp s (.checkOut e.storage_id dOut) = .error .NotFound) ∧
       (∀ op : Op, ∀ e ∈ s.storage, e.available = false →
         ∀ e2 ∈ (applyOp s op).storage, e2.storage_id = e.storage_id →
           e2.available = false)) := by
  intro s hs
  have hwf := wf_of_reachable hs
  obtain ⟨⟨h1, h2, h3, h4, h5, h6, h7, h8, h9⟩,
    hbf, hbd, hbp, hbs, hdate, hw, hm⟩ := id hwf
  refine ⟨?_, ?_, ?_, ?_⟩
  · intro pid did w dateIn s2 hok e he hnew
    simp only [runOp, createStorageEntry] at hok
    by_cases hc1 : pid ∉ s.products.map Product.product_id
    · rw [if_pos hc1] at hok; exact absurd hok (by simp)
    rw [if_neg hc1] at hok
    by_cases hc2 : did ∉ s.drawers.map Drawer.drawer_id
    · rw [if_pos hc2] at hok; exact absurd hok (by simp)
    rw [if_neg hc2] at hok
    by_cases hc3 : w ≤ 0
    · rw [if_pos hc3] at hok; exact absurd hok (by simp)
    rw [if_neg hc3] at hok
    injection hok with hok
    subst hok
    rcases List.mem_append.1 he with hin | hin
    · exact absurd hin hnew
    · rw [List.mem_singleton] at hin; subst hin; exact ⟨rfl, rfl⟩
  · intro e he hav dOut hnlt
    have hfind := find_by_id h8 he rfl
    have havf : ¬ (e.available = false) := by rw [hav]; intro hcon; cases hcon
    have hrun : runOp s (.checkOut e.storage_id dOut) = .ok
        { s with storage := s.storage.map (fun e2 =>
          if e2.storage_id = e.storage_id then
            { e2 with available := false, date_out := some dOut }
          else e2) } := by
      simp only [runOp, checkOut, hfind, if_neg havf, if_neg hnlt]
    obtain ⟨⟨_, _, _, _, _, _, _, h8b, _⟩, _⟩ := wf_runOp hwf hrun
    refine ⟨_, hrun, ?_, ?_⟩
    · intro e2 he2 hid
      obtain ⟨e0, he0, he0e⟩ := List.mem_map.1 he2
      subst he0e
      by_cases hcc : e0.storage_id = e.storage_id
      · rw [if_pos hcc]
        exact ⟨rfl, rfl⟩
      · rw [if_neg hcc] at hid
        exact absurd hid hcc
    · intro dOut2
      have hmem2 :
          ({ e with available := false, date_out := some dOut } :
            StorageEntry) ∈ (s.storage.map (fun e2 =>
            if e2.storage_id = e.storage_id then
              { e2 with available := false, date_out := some dOut }
            else e2)) := by
        refine List.mem_map.2 ⟨e, he, ?_⟩
        rw [if_pos rfl]
      have hfind2 := find_by_id h8b hmem2 rfl
      simp [runOp, checkOut, hfind2]
  · intro e he hav dOut
    have hfind := find_by_id h8 he rfl
    simp only [runOp, checkOut, hfind, if_pos hav]
  · intro op e he hav e2 he2 hid
    cases hr : runOp s op with
    | ok s2 =>
      have happ : applyOp s op = s2 := by simp only [applyOp, hr]
      rw [happ] at he2
      exact storage_latch_run hwf hr e he hav e2 he2 hid
    | error err =>
      have happ : applyOp s op = s := by simp only [applyOp, hr]
      rw [happ] at he2
      exact latch_core h8 (fun x hx => hx) e he hav e2 he2 hid

/-- C7: for every filter, the sequence returned by `listStorageEntries`
is strictly ordered: `date_in` ascending, and entries with identical
`date_in` in `storage_id` ascending order (given the primary-key
distinctness of storage ids). -/
theorem claim_C7_listing_sorted :
    ∀ (s : Store) (flt : StorageFilter) (now : Date),
      (s.storage.map StorageEntry.storage_id).Nodup →
      List.Pairwise (fun a b => dateLt a.date_in b.date_in ∨
        (rataDie a.date_in = rataDie b.date_in ∧ a.storage_id < b.storage_id))
        (listStorageEntries s flt now) := by
  intro s flt now hnd
  have hsorted : List.Pairwise entryOrder (listStorageEntries s flt now) :=
    List.sorted_insertionSort entryOrder _
  have hperm : List.Perm (listStorageEntries s flt now)
      (s.storage.filter (entryMatches s flt now)) :=
    List.perm_insertionSort entryOrder _
  have hndf : ((s.storage.filter (entryMatches s flt now)).map
      StorageEntry.storage_id).Nodup := nodup_map_filter hnd
  have hnd2 : ((listStorageEntries s flt now).map
      StorageEntry.storage_id).Nodup :=
    ((hperm.map StorageEntry.storage_id).nodup_iff).mpr hndf
  have hpairNe : List.Pairwise (fun a b : StorageEntry =>
      a.storage_id ≠ b.storage_id) (listStorageEntries s flt now) :=
    List.pairwise_map.mp hnd2
  refine (hsorted.and hpairNe).imp ?_
  intro a b hab
  obtain ⟨hord, hne⟩ := hab
  unfold entryOrder at hord
  unfold dateLt
  rcases hord with h | ⟨heq, hle⟩
  · exact Or.inl h
  · exact Or.inr ⟨heq, lt_of_le_of_ne hle hne⟩

/-- C8: aggregation counts and sums only available entries regardless of
the filter's `availableOnly` flag, and a product with an empty matched
entry set yields no output row. -/
theorem claim_C8_aggregate_available_only :
    ∀ (s : Store) (flt : StorageFilter) (now : Date),
      ((∀ b, aggregateByProduct s { flt with availableOnly := b } now =
        aggregateByProduct s flt now) ∧
       (∀ row ∈ aggregateByProduct s flt now, 0 < row.entryCount) ∧
       (∀ row ∈ aggregateByProduct s flt now,
         ∃ p ∈ s.products, row.productId = p.product_id ∧
           row.productName = p.name ∧
           row.entryCount = ((s.storage.filter (fun e => e.available &&
             entryMatches s { flt with availableOnly := true } now e)).filter
             (fun e => e.product_id == p.product_id)).length ∧
           row.totalWeightGrams = (((s.storage.filter
             (fun e => e.available &&
               entryMatches s { flt with availableOnly := true } now e)).filter
             (fun e => e.product_id == p.product_id)).map
             StorageEntry.weight_grams).sum) ∧
       (∀ pid, (∀ e ∈ s.storage,
           entryMatches s { flt with availableOnly := true } now e = true →
           ¬ e.product_id = pid) →
         ∀ row ∈ aggregateByProduct s flt now, ¬ row.productId = pid)) := by
  intro s flt now
  have havail : ∀ e, entryMatches s { flt with availableOnly := true } now e =
      true → e.available = true := by
    intro e hmatch
    unfold entryMatches at hmatch
    simp only [Bool.and_eq_true] at hmatch
    have h4 := hmatch.1.2
    simpa using h4
  have hfiltereq :
      s.storage.filter (entryMatches s { flt with availableOnly := true } now) =
      s.storage.filter (fun e => e.available &&
        entryMatches s { flt with availableOnly := true } now e) := by
    apply List.filter_congr
    intro e _
    cases hm : entryMatches s { flt with availableOnly := true } now e
    · simp
    · simp [havail e hm]
  refine ⟨?_, ?_, ?_, ?_⟩
  · intro b; rfl
  · intro row hrow
    unfold aggregateByProduct at hrow
    obtain ⟨p, hp, hpe⟩ := List.mem_map.1 hrow
    rw [List.mem_filter] at hp
    obtain ⟨hpmem, hpany⟩ := hp
    rw [List.any_eq_true] at hpany
    obtain ⟨e, hemem, hep⟩ := hpany
    subst hpe
    exact List.length_pos.2 (List.ne_nil_of_mem (List.mem_filter.2 ⟨hemem, hep⟩))
  · intro row hrow
    unfold aggregateByProduct at hrow
    obtain ⟨p, hp, hpe⟩ := List.mem_map.1 hrow
    rw [List.mem_filter] at hp
    subst hpe
    refine ⟨p, hp.1, rfl, rfl, ?_, ?_⟩
    · show ((s.storage.filter
        (entryMatches s { flt with availableOnly := true } now)).filter
        (fun e => e.product_id == p.product_id)).length = _
      rw [hfiltereq]
    · show ratSum (((s.storage.filter
        (entryMatches s { flt with availableOnly := true } now)).filter
        (fun e => e.product_id == p.product_id)).map
        StorageEntry.weight_grams) = _
      rw [ratSum_eq_sum, hfiltereq]
  · intro pid hnone row hrow
    unfold aggregateByProduct at hrow
    obtain ⟨p, hp, hpe⟩ := List.mem_map.1 hrow
    rw [List.mem_filter] at hp
    obtain ⟨hpmem, hpany⟩ := hp
    rw [List.any_eq_true] at hpany
    obtain ⟨e, hemem, hep⟩ := hpany
    subst hpe
    intro hpid
    rw [List.mem_filter] at hemem
    have hepid : e.product_id = p.product_id := by simpa using hep
    have hppid : p.product_id = pid := hpid
    exact hnone e hemem.1 hemem.2 (by rw [hepid, hppid])

/-! ## Witness data: a small store built through the API operations
(the end-to-end example of §8 of the spec). -/

def demoOps : List Op :=
  [.createFreezer "Garage", .createDrawer 1 "Schuif 1",
   .createProduct "Brocoli" 12, .createStorageEntry 1 1 400 ⟨2023, 11, 8⟩]

def demoStore : Store := demoOps.foldl applyOp emptyStore

def demoEntry : StorageEntry := ⟨1, 1, 1, 400, ⟨2023, 11, 8⟩, none, true⟩

theorem claim_C1_witness :
    runOp demoStore (.createFreezer "Garage") = .error .DuplicateName ∧
    runOp demoStore (.createProduct "Brocoli" 6) = .error .DuplicateName ∧
    runOp demoStore (.createDrawer 1 "Schuif 1") = .error .DuplicateName := by
  have h := claim_C1_name_uniqueness demoStore ⟨demoOps, rfl⟩
  exact ⟨(h.1 "Garage" (by decide)).1, (h.2.1 "Brocoli" 6 (by decide)).1,
    (h.2.2.1 1 "Schuif 1" (by decide)).1⟩

theorem claim_C2_witness :
    runOp demoStore (.createProduct "Soep" (-1)) = .error .InvalidArgument ∧
    runOp demoStore
      (.createStorageEntry 1 1 (Rat.divInt (-5) 1) ⟨2023, 1, 1⟩) =
      .error .InvalidArgument := by
  have h := claim_C2_write_time_positivity demoStore ⟨demoOps, rfl⟩
  exact ⟨(h.1 "Soep" (-1) (by decide) (by decide)).1,
    (h.2.1 1 1 (Rat.divInt (-5) 1) ⟨2023, 1, 1⟩ (by decide) (by decide)
      (by decide)).1⟩

theorem claim_C3_witness :
    refIntegrity seedPart001 ∧
    (∀ d ∈ (applyOp seedPart001 (.deleteFreezer 1)).drawers,
      ¬ d.freezer_id = 1) ∧
    (∀ e ∈ (applyOp seedPart001 (.deleteDrawer 1)).storage,
      ¬ e.drawer_id = 1) ∧
    (∀ e ∈ (applyOp seedPart001 (.deleteProduct 7)).storage,
      ¬ e.product_id = 7) :=
  ⟨by decide,
   ((claim_C3_cascade_delete seedPart001 (by decide)).1 1).1,
   ((claim_C3_cascade_delete seedPart001 (by decide)).2.1 1).1,
   ((claim_C3_cascade_delete seedPart001 (by decide)).2.2 7).1⟩

theorem claim_C4_witness :
    runOp demoStore (.checkOut 1 ⟨2023, 1, 1⟩) = .error .InvalidArgument :=
  ((claim_C4_dateOut_not_before_dateIn demoStore ⟨demoOps, rfl⟩).2
    demoEntry (by decide) rfl ⟨2023, 1, 1⟩ (by decide)).1

theorem claim_C5_witness :
    ∃ s2, runOp demoStore (.checkOut 1 ⟨2024, 1, 1⟩) = .ok s2 ∧
      (∀ dOut2, runOp s2 (.checkOut 1 dOut2) = .error .NotFound) := by
  have h := (claim_C5_checkout_exactly_once demoStore ⟨demoOps, rfl⟩).2.1
    demoEntry (by decide) rfl ⟨2024, 1, 1⟩ (by decide)
  obtain ⟨s2, hrun, _, hsecond⟩ := h
  exact ⟨s2, hrun, hsecond⟩

theorem claim_C7_witness :
    List.Pairwise (fun a b => dateLt a.date_in b.date_in ∨
      (rataDie a.date_in = rataDie b.date_in ∧ a.storage_id < b.storage_id))
      (listStorageEntries seedPart001 ⟨none, none, none, true, none⟩
        ⟨2023, 12, 1⟩) :=
  claim_C7_listing_sorted seedPart001 ⟨none, none, none, true, none⟩
    ⟨2023, 12, 1⟩ (by decide)

theorem claim_C8_witness :
    (⟨8, "Hamburgers", 4, 800⟩ : AggRow) ∈
      aggregateByProduct seedPart002 ⟨none, none, none, false, none⟩
        ⟨2023, 12, 1⟩ ∧
    (0 : Nat) < (⟨8, "Hamburgers", 4, 800⟩ : AggRow).entryCount :=
  ⟨by decide,
   (claim_C8_aggregate_available_only seedPart002
     ⟨none, none, none, false, none⟩ ⟨2023, 12, 1⟩).2.1 _ (by decide)⟩

end Freezit
